import Mathlib

/-!
Verification development for the memfd wrapper crate.

The crate (src/lib.rs) is a thin wrapper around the Linux `memfd_create(2)`
syscall: an `OpenOptions` builder accumulating a flag bitmask, a `create`
method turning a name into an anonymous in-memory file, and the resulting
handle which forwards the standard file operations (write, read, seek,
set_len) to the OS file object.

The builder and its flag arithmetic are embedded directly from the source.
The kernel side (the syscall's allocation of a fresh descriptor and the
semantics of the file operations on an anonymous memory file) is not part
of the crate's source, so it is modelled from the specification: a kernel
state is a list of files indexed by descriptor number, and each file is a
byte list together with a cursor.
-/

namespace Memfd

/-- The `MFD_CLOEXEC` flag bit, as defined by Linux and re-exported by the
nix crate used in the source. -/
def MFD_CLOEXEC : Nat := 1

/-- The `MFD_ALLOW_SEALING` flag bit, as defined by Linux and re-exported by
the nix crate used in the source. -/
def MFD_ALLOW_SEALING : Nat := 2

/-- Modelled from the spec: one anonymous memory file as the kernel keeps it.
`content` is the byte sequence, `pos` the read/write cursor of the (single)
open description, `name` the diagnostic-only name recorded at creation, and
`flags` the creation flag bitmask. Bytes are `Nat` values; only the null
byte (0) is ever distinguished. -/
structure MemFile where
  content : List Nat
  pos : Nat
  name : List Nat
  flags : Nat
deriving DecidableEq

/-- The argument of a seek, after `std::io::SeekFrom`: from the start
(unsigned), from the current position, or from the end of data (signed). -/
inductive SeekFrom where
  | start (n : Nat)
  | current (d : Int)
  | fromEnd (d : Int)
deriving DecidableEq

/-- Modelled from the spec: `write` overwrites bytes of the file starting at
the cursor, zero-filling any gap between the end of content and a cursor
beyond it, advances the cursor, and returns the number of bytes written. -/
def MemFile.write (f : MemFile) (buf : List Nat) : MemFile × Nat :=
  let padded := f.content ++ List.replicate (f.pos - f.content.length) 0
  (⟨padded.take f.pos ++ buf ++ padded.drop (f.pos + buf.length),
    f.pos + buf.length, f.name, f.flags⟩, buf.length)

/-- Modelled from the spec: `read` into a buffer of capacity `n` returns the
bytes of the content from the cursor, at most `n` of them, and advances the
cursor by the number of bytes returned. -/
def MemFile.read (f : MemFile) (n : Nat) : MemFile × List Nat :=
  let bytes := (f.content.drop f.pos).take n
  (⟨f.content, f.pos + bytes.length, f.name, f.flags⟩, bytes)

/-- Modelled from the spec: `read_to_end` returns all bytes from the cursor
to the end of data and leaves the cursor at the end of data. -/
def MemFile.read_to_end (f : MemFile) : MemFile × List Nat :=
  let bytes := f.content.drop f.pos
  (⟨f.content, f.pos + bytes.length, f.name, f.flags⟩, bytes)

/-- Modelled from the spec: `seek` repositions the cursor absolutely, or
relative to the cursor, or relative to the end of data; a negative final
position is an error (`none`); on success the new absolute offset is
returned. -/
def MemFile.seek (f : MemFile) (s : SeekFrom) : Option (MemFile × Nat) :=
  let newPos : Int :=
    match s with
    | SeekFrom.start n => (n : Int)
    | SeekFrom.current d => (f.pos : Int) + d
    | SeekFrom.fromEnd d => (f.content.length : Int) + d
  if newPos < 0 then none
  else some (⟨f.content, newPos.toNat, f.name, f.flags⟩, newPos.toNat)

/-- Modelled from the spec: `set_len` truncates the content to `n` bytes or
extends it with zero bytes to `n` bytes; the cursor does not move. -/
def MemFile.set_len (f : MemFile) (n : Nat) : MemFile :=
  ⟨f.content.take n ++ List.replicate (n - f.content.length) 0,
   f.pos, f.name, f.flags⟩

/-- Modelled from the spec: the kernel's table of anonymous files, indexed by
file descriptor number. -/
structure Kernel where
  files : List MemFile
deriving DecidableEq

/-- A kernel with no anonymous files yet. -/
def Kernel.empty : Kernel := ⟨[]⟩

/-- Look up the file behind a descriptor. -/
def Kernel.getFile (k : Kernel) (fd : Nat) : Option MemFile :=
  k.files[fd]?

/-- Replace the file behind a descriptor. -/
def Kernel.setFile (k : Kernel) (fd : Nat) (f : MemFile) : Kernel :=
  ⟨k.files.set fd f⟩

/-- Modelled from the spec: the `memfd_create(2)` syscall allocates a fresh
descriptor for a new, empty anonymous file with cursor 0; the name carries
no aliasing semantics and is recorded only for diagnostics. (Resource
exhaustion is not modelled: the idealized syscall always succeeds.) -/
def memfd_create (k : Kernel) (name : List Nat) (flags : Nat) : Kernel × Nat :=
  (⟨k.files ++ [⟨[], 0, name, flags⟩]⟩, k.files.length)

/-- Kernel-level write through a descriptor. -/
def Kernel.write (k : Kernel) (fd : Nat) (buf : List Nat) :
    Option (Kernel × Nat) :=
  match k.getFile fd with
  | none => none
  | some f => some (k.setFile fd (f.write buf).1, (f.write buf).2)

/-- Kernel-level read_to_end through a descriptor. -/
def Kernel.read_to_end (k : Kernel) (fd : Nat) : Option (Kernel × List Nat) :=
  match k.getFile fd with
  | none => none
  | some f => some (k.setFile fd f.read_to_end.1, f.read_to_end.2)

/-- Kernel-level seek through a descriptor. -/
def Kernel.seek (k : Kernel) (fd : Nat) (s : SeekFrom) :
    Option (Kernel × Nat) :=
  match k.getFile fd with
  | none => none
  | some f =>
    match f.seek s with
    | none => none
    | some fp => some (k.setFile fd fp.1, fp.2)

/-- Kernel-level set_len through a descriptor. -/
def Kernel.set_len (k : Kernel) (fd : Nat) (n : Nat) : Option Kernel :=
  match k.getFile fd with
  | none => none
  | some f => some (k.setFile fd (f.set_len n))

/-- The options builder of the source: a bitmask of creation flags
(`OpenOptions(MemFdCreateFlag)`). -/
structure OpenOptions where
  flags : Nat
deriving DecidableEq

/-- `OpenOptions::new`: all options initially unset (`MemFdCreateFlag::empty()`). -/
def OpenOptions.new : OpenOptions := ⟨0⟩

/-- `OpenOptions::allow_sealing`: insert or remove `MFD_ALLOW_SEALING` in the
bitmask. Bitflag removal `flags &= !MFD_ALLOW_SEALING` is embedded as
subtracting the bits common to `flags` and the mask, which clears exactly
those bits. The Rust `&mut self -> &mut Self` chaining is embedded as
returning the updated builder. -/
def OpenOptions.allow_sealing (o : OpenOptions) (b : Bool) : OpenOptions :=
  if b then ⟨o.flags ||| MFD_ALLOW_SEALING⟩
  else ⟨o.flags - (o.flags &&& MFD_ALLOW_SEALING)⟩

/-- `OpenOptions::close_on_exec`: insert or remove `MFD_CLOEXEC` in the
bitmask, embedded as for `allow_sealing`. -/
def OpenOptions.close_on_exec (o : OpenOptions) (b : Bool) : OpenOptions :=
  if b then ⟨o.flags ||| MFD_CLOEXEC⟩
  else ⟨o.flags - (o.flags &&& MFD_CLOEXEC)⟩

/-- The outcome of `OpenOptions::create`, which in the source returns
`io::Result<File>` but first runs `CString::new(name).unwrap()`:
`panicked` is the unwrap panic on a name with an embedded null byte (no
value is returned to the caller at all), `osError` is an `Err` carrying an
OS error code, and `ok` is a successfully created descriptor together with
the kernel state after the syscall. -/
inductive CreateResult where
  | panicked
  | osError (errno : Nat)
  | ok (k : Kernel) (fd : Nat)
deriving DecidableEq

/-- Whether a create outcome is an `Err` result carrying an OS error. -/
def CreateResult.isOsError : CreateResult → Bool
  | CreateResult.osError _ => true
  | _ => false

/-- `OpenOptions::create`: `CString::new(name).unwrap()` panics if the name
contains an embedded null byte, before any syscall; otherwise
`memfd_create` runs with the accumulated flags and the new descriptor is
wrapped as the handle. The builder is taken by shared reference (`&self`),
embedded here as a pure function of the builder. -/
def OpenOptions.create (o : OpenOptions) (k : Kernel) (name : List Nat) :
    CreateResult :=
  if name.contains 0 then CreateResult.panicked
  else
    let r := memfd_create k name o.flags
    CreateResult.ok r.1 r.2

/-- The package-level shorthand `create`: delegates to a default builder. -/
def create (k : Kernel) (name : List Nat) : CreateResult :=
  OpenOptions.new.create k name

/-- One call to either builder toggle. -/
inductive BuilderOp where
  | allowSealing (b : Bool)
  | closeOnExec (b : Bool)
deriving DecidableEq

/-- Apply one toggle to a builder. -/
def applyOp (o : OpenOptions) (op : BuilderOp) : OpenOptions :=
  match op with
  | BuilderOp.allowSealing b => o.allow_sealing b
  | BuilderOp.closeOnExec b => o.close_on_exec b

/-- Apply a whole sequence of toggles to a fresh builder. -/
def applyOps (ops : List BuilderOp) : OpenOptions :=
  ops.foldl applyOp OpenOptions.new

/-- Auxiliary: the content produced by `set_len` has exactly the requested
length. -/
theorem set_len_content_length (f : MemFile) (n : Nat) :
    (f.set_len n).content.length = n := by
  simp only [MemFile.set_len, List.length_append, List.length_take,
    List.length_replicate]
  omega

/-- C3: `set_len n` resizes the content to exactly `n` bytes — truncating
when `n` is at most the current length and zero-filling beyond it otherwise
— without moving the cursor, so a subsequent seek to end-of-data returns
absolute offset `n`. -/
theorem set_len_resizes_exactly (f : MemFile) (n : Nat) :
    (f.set_len n).content.length = n ∧
    (f.set_len n).pos = f.pos ∧
    ((f.set_len n).content =
      if n ≤ f.content.length then f.content.take n
      else f.content ++ List.replicate (n - f.content.length) 0) ∧
    ∃ f2, (f.set_len n).seek (SeekFrom.fromEnd 0) = some (f2, n) := by
  refine ⟨set_len_content_length f n, rfl, ?_, ?_⟩
  · by_cases hc : n ≤ f.content.length
    · simp [MemFile.set_len, hc, Nat.sub_eq_zero_of_le hc]
    · simp [MemFile.set_len, hc,
        List.take_of_length_le (Nat.le_of_not_le hc)]
  · refine ⟨⟨(f.set_len n).content, n, (f.set_len n).name,
      (f.set_len n).flags⟩, ?_⟩
    simp [MemFile.seek, set_len_content_length f n]

/-- Auxiliary: writing with the cursor at or past the end of content yields
content equal to the (zero-padded) old content followed by the buffer, with
the cursor again at the end. -/
theorem write_at_end_content (f : MemFile) (buf : List Nat)
    (h : f.content.length ≤ f.pos) :
    ((f.write buf).1).content =
      (f.content ++ List.replicate (f.pos - f.content.length) 0) ++ buf := by
  have hpad :
      (f.content ++ List.replicate (f.pos - f.content.length) 0).length =
        f.pos := by
    simp only [List.length_append, List.length_replicate]
    omega
  simp only [MemFile.write]
  rw [List.take_of_length_le (le_of_eq hpad),
      List.drop_eq_nil_of_le (by rw [hpad]; omega)]
  simp

/-- C7: immediately after a write performed with the cursor at the end of
data, `read_to_end` returns zero bytes: the cursor, not the content,
determines what is readable. In general a read returns the bytes of the
content from the cursor (capped by the buffer capacity) and advances the
cursor by the number returned. -/
theorem read_after_write_empty (f : MemFile) (buf : List Nat) (n : Nat)
    (h : f.content.length ≤ f.pos) :
    ((f.write buf).1).read_to_end.2 = [] ∧
    (f.write buf).2 = buf.length ∧
    (f.read n).2 = (f.content.drop f.pos).take n ∧
    (f.read n).1.pos = f.pos + (f.read n).2.length := by
  refine ⟨?_, rfl, rfl, rfl⟩
  have hlen : ((f.write buf).1).content.length = (f.write buf).1.pos := by
    rw [write_at_end_content f buf h]
    simp only [MemFile.write, List.length_append, List.length_replicate]
    omega
  simp only [MemFile.read_to_end]
  exact List.drop_eq_nil_of_le (le_of_eq hlen)

/-- Witness for C7 at a concrete file with cursor at the end of its two-byte
content. -/
theorem read_after_write_empty_witness :
    (([1, 2] : List Nat)).length ≤ 2 ∧
    (((⟨[1, 2], 2, [102], 0⟩ : MemFile).write [5, 6]).1).read_to_end.2 = [] := by
  refine ⟨by decide, ?_⟩
  exact (read_after_write_empty ⟨[1, 2], 2, [102], 0⟩ [5, 6] 3 (by decide)).1

/-- Auxiliary: successful create appends one empty file and returns its
descriptor. -/
theorem create_ok (o : OpenOptions) (k : Kernel) (name : List Nat)
    (h : name.contains 0 = false) :
    o.create k name =
      CreateResult.ok ⟨k.files ++ [⟨[], 0, name, o.flags⟩]⟩
        k.files.length := by
  have h2 : ¬ (0 ∈ name) := by simpa using h
  simp [OpenOptions.create, memfd_create, h2]

/-- Auxiliary: looking up the descriptor just written by `setFile`. -/
theorem getFile_setFile_self (k : Kernel) (fd : Nat) (f : MemFile)
    (h : fd < k.files.length) : (k.setFile fd f).getFile fd = some f := by
  simp [Kernel.setFile, Kernel.getFile, List.getElem?_set_self, h]

/-- Auxiliary: `setFile` at one descriptor leaves every other descriptor's
file unchanged. -/
theorem getFile_setFile_ne (k : Kernel) (fd fd2 : Nat) (f : MemFile)
    (h : fd ≠ fd2) : (k.setFile fd f).getFile fd2 = k.getFile fd2 := by
  simp [Kernel.setFile, Kernel.getFile, List.getElem?_set_ne h]

/-- C9: for every valid name (no embedded null byte), create succeeds and
yields a handle on a zero-length file, so an initial seek to end-of-data
returns offset 0. -/
theorem create_valid_name_empty (o : OpenOptions) (k : Kernel)
    (name : List Nat) (h : name.contains 0 = false) :
    ∃ k1 fd, o.create k name = CreateResult.ok k1 fd ∧
      k1.getFile fd = some ⟨[], 0, name, o.flags⟩ ∧
      ∃ k2, k1.seek fd (SeekFrom.fromEnd 0) = some (k2, 0) := by
  refine ⟨⟨k.files ++ [⟨[], 0, name, o.flags⟩]⟩, k.files.length,
    create_ok o k name h, ?_, ?_⟩
  · exact List.getElem?_concat_length _ _
  · have hg : (⟨k.files ++ [⟨[], 0, name, o.flags⟩]⟩ : Kernel).getFile
        k.files.length = some ⟨[], 0, name, o.flags⟩ :=
      List.getElem?_concat_length _ _
    refine ⟨(⟨k.files ++ [⟨[], 0, name, o.flags⟩]⟩ : Kernel).setFile
      k.files.length ⟨[], 0, name, o.flags⟩, ?_⟩
    simp [Kernel.seek, hg, MemFile.seek]

/-- Witness for C9 at the concrete name "foobar" on the empty kernel. -/
theorem create_valid_name_empty_witness :
    ([102, 111, 111, 98, 97, 114] : List Nat).contains 0 = false ∧
    ∃ k1 fd, OpenOptions.new.create Kernel.empty
        [102, 111, 111, 98, 97, 114] = CreateResult.ok k1 fd ∧
      k1.getFile fd = some ⟨[], 0, [102, 111, 111, 98, 97, 114], 0⟩ ∧
      ∃ k2, k1.seek fd (SeekFrom.fromEnd 0) = some (k2, 0) :=
  ⟨by decide, create_valid_name_empty OpenOptions.new Kernel.empty
    [102, 111, 111, 98, 97, 114] (by decide)⟩

/-- Auxiliary: writing a buffer into a fresh empty file makes the buffer the
whole content, with the cursor at its end. -/
theorem write_fresh_file (name : List Nat) (flags : Nat) (B : List Nat) :
    (MemFile.write ⟨[], 0, name, flags⟩ B) =
      (⟨B, B.length, name, flags⟩, B.length) := by
  simp [MemFile.write]

/-- C2: writing a byte sequence `B` to a freshly created handle, seeking back
to absolute position 0, then reading to end returns exactly `B`; the write
reports `B.length` bytes written and the seek reports offset 0. -/
theorem write_seek_read_roundtrip (k : Kernel) (name B : List Nat)
    (h : name.contains 0 = false) :
    ∃ k1 fd, OpenOptions.new.create k name = CreateResult.ok k1 fd ∧
    ∃ k2, k1.write fd B = some (k2, B.length) ∧
    ∃ k3, k2.seek fd (SeekFrom.start 0) = some (k3, 0) ∧
    ∃ k4, k3.read_to_end fd = some (k4, B) := by
  refine ⟨⟨k.files ++ [⟨[], 0, name, 0⟩]⟩, k.files.length,
    create_ok OpenOptions.new k name h, ?_⟩
  set e : MemFile := ⟨[], 0, name, 0⟩ with he
  set k1 : Kernel := ⟨k.files ++ [e]⟩ with hk1
  have hfd : k.files.length < k1.files.length := by simp [hk1]
  have hg1 : k1.getFile k.files.length = some e :=
    List.getElem?_concat_length _ _
  refine ⟨k1.setFile k.files.length ⟨B, B.length, name, 0⟩, ?_, ?_⟩
  · simp [Kernel.write, hg1, he, write_fresh_file]
  set k2 : Kernel := k1.setFile k.files.length ⟨B, B.length, name, 0⟩
    with hk2
  have hfd2 : k.files.length < k2.files.length := by
    simp [hk2, Kernel.setFile, hfd]
  have hg2 : k2.getFile k.files.length = some ⟨B, B.length, name, 0⟩ :=
    getFile_setFile_self k1 _ _ hfd
  refine ⟨k2.setFile k.files.length ⟨B, 0, name, 0⟩, ?_, ?_⟩
  · simp [Kernel.seek, hg2, MemFile.seek]
  set k3 : Kernel := k2.setFile k.files.length ⟨B, 0, name, 0⟩ with hk3
  have hg3 : k3.getFile k.files.length = some ⟨B, 0, name, 0⟩ :=
    getFile_setFile_self k2 _ _ hfd2
  refine ⟨k3.setFile k.files.length ⟨B, B.length, name, 0⟩, ?_⟩
  simp [Kernel.read_to_end, hg3, MemFile.read_to_end]

/-- Witness for C2 at the concrete scenario of the spec: name "foobar",
buffer "hello world" (11 bytes). -/
theorem write_seek_read_roundtrip_witness :
    ([102, 111, 111, 98, 97, 114] : List Nat).contains 0 = false ∧
    ∃ k1 fd, OpenOptions.new.create Kernel.empty
        [102, 111, 111, 98, 97, 114] = CreateResult.ok k1 fd ∧
    ∃ k2, k1.write fd [104, 101, 108, 108, 111, 32, 119, 111, 114, 108, 100]
        = some (k2, 11) ∧
    ∃ k3, k2.seek fd (SeekFrom.start 0) = some (k3, 0) ∧
    ∃ k4, k3.read_to_end fd =
        some (k4, [104, 101, 108, 108, 111, 32, 119, 111, 114, 108, 100]) :=
  ⟨by decide, write_seek_read_roundtrip Kernel.empty
    [102, 111, 111, 98, 97, 114]
    [104, 101, 108, 108, 111, 32, 119, 111, 114, 108, 100] (by decide)⟩

/-- C8: two handles created with the same name are wholly independent: their
descriptors differ, and after writing a buffer through the first handle,
reading through the second still yields no bytes — the write is never
visible through the other handle. -/
theorem same_name_independent (k : Kernel) (name buf : List Nat)
    (h : name.contains 0 = false) :
    ∃ k1 fd1, OpenOptions.new.create k name = CreateResult.ok k1 fd1 ∧
    ∃ k2 fd2, OpenOptions.new.create k1 name = CreateResult.ok k2 fd2 ∧
    fd1 ≠ fd2 ∧
    ∃ k3, k2.write fd1 buf = some (k3, buf.length) ∧
    ∃ k4, k3.read_to_end fd2 = some (k4, []) := by
  refine ⟨⟨k.files ++ [⟨[], 0, name, 0⟩]⟩, k.files.length,
    create_ok OpenOptions.new k name h, ?_⟩
  set e : MemFile := ⟨[], 0, name, 0⟩ with he
  set k1 : Kernel := ⟨k.files ++ [e]⟩ with hk1
  refine ⟨⟨k1.files ++ [e]⟩, k1.files.length,
    create_ok OpenOptions.new k1 name h, ?_, ?_⟩
  · simp [hk1]
  have hne : k.files.length ≠ k1.files.length := by simp [hk1]
  have hgA : (⟨k1.files ++ [e]⟩ : Kernel).getFile k.files.length =
      some e := by
    show ((k.files ++ [e]) ++ [e])[k.files.length]? = some e
    rw [List.append_assoc, List.getElem?_append_right (le_refl _)]
    simp
  have hgB : (⟨k1.files ++ [e]⟩ : Kernel).getFile k1.files.length =
      some e := List.getElem?_concat_length _ _
  set k2 : Kernel := ⟨k1.files ++ [e]⟩ with hk2
  refine ⟨k2.setFile k.files.length ⟨buf, buf.length, name, 0⟩, ?_, ?_⟩
  · simp [Kernel.write, hgA, he, write_fresh_file]
  set k3 : Kernel := k2.setFile k.files.length ⟨buf, buf.length, name, 0⟩
    with hk3
  have hgC : k3.getFile (k.files.length + 1) = some e := by
    have hx := (getFile_setFile_ne k2 k.files.length k1.files.length
      ⟨buf, buf.length, name, 0⟩ hne).trans hgB
    simpa [hk1] using hx
  refine ⟨k3.setFile (k.files.length + 1) e, ?_⟩
  simp [Kernel.read_to_end, hgC, he, MemFile.read_to_end, hk1]

/-- Witness for C8 at the concrete name "foobar" and buffer "hello world"
on the empty kernel. -/
theorem same_name_independent_witness :
    ([102, 111, 111, 98, 97, 114] : List Nat).contains 0 = false ∧
    ∃ k1 fd1, OpenOptions.new.create Kernel.empty
        [102, 111, 111, 98, 97, 114] = CreateResult.ok k1 fd1 ∧
    ∃ k2 fd2, OpenOptions.new.create k1 [102, 111, 111, 98, 97, 114] =
        CreateResult.ok k2 fd2 ∧
    fd1 ≠ fd2 ∧
    ∃ k3, k2.write fd1 [104, 101, 108, 108, 111, 32, 119, 111, 114, 108, 100]
        = some (k3, 11) ∧
    ∃ k4, k3.read_to_end fd2 = some (k4, []) :=
  ⟨by decide, same_name_independent Kernel.empty
    [102, 111, 111, 98, 97, 114]
    [104, 101, 108, 108, 111, 32, 119, 111, 114, 108, 100] (by decide)⟩

/-- C10: create takes the builder by shared reference — embedded as a pure
function of the builder — so the builder is reusable: two successive creates
from the same builder both record exactly the builder's flag set, and the
second create leaves the first file untouched. -/
theorem builder_create_reusable (o : OpenOptions) (k : Kernel)
    (n1 n2 : List Nat) (h1 : n1.contains 0 = false)
    (h2 : n2.contains 0 = false) :
    ∃ k1 fd1, o.create k n1 = CreateResult.ok k1 fd1 ∧
    ∃ k2 fd2, o.create k1 n2 = CreateResult.ok k2 fd2 ∧
    k1.getFile fd1 = some ⟨[], 0, n1, o.flags⟩ ∧
    k2.getFile fd2 = some ⟨[], 0, n2, o.flags⟩ ∧
    k2.getFile fd1 = k1.getFile fd1 := by
  refine ⟨⟨k.files ++ [⟨[], 0, n1, o.flags⟩]⟩, k.files.length,
    create_ok o k n1 h1, ?_⟩
  set e1 : MemFile := ⟨[], 0, n1, o.flags⟩ with he1
  set k1 : Kernel := ⟨k.files ++ [e1]⟩ with hk1
  have hlt : k.files.length < k1.files.length := by simp [hk1]
  refine ⟨⟨k1.files ++ [⟨[], 0, n2, o.flags⟩]⟩, k1.files.length,
    create_ok o k1 n2 h2, ?_, ?_, ?_⟩
  · exact List.getElem?_concat_length _ _
  · exact List.getElem?_concat_length _ _
  · show (k1.files ++ [⟨[], 0, n2, o.flags⟩])[k.files.length]? =
      k1.files[k.files.length]?
    exact List.getElem?_append_left hlt

/-- Witness for C10 at the concrete names "foo1" and "foo2" with a builder
having both flags set. -/
theorem builder_create_reusable_witness :
    ([102, 111, 111, 49] : List Nat).contains 0 = false ∧
    ([102, 111, 111, 50] : List Nat).contains 0 = false ∧
    ∃ k1 fd1, (OpenOptions.mk 3).create Kernel.empty [102, 111, 111, 49] =
        CreateResult.ok k1 fd1 ∧
    ∃ k2 fd2, (OpenOptions.mk 3).create k1 [102, 111, 111, 50] =
        CreateResult.ok k2 fd2 ∧
    k1.getFile fd1 = some ⟨[], 0, [102, 111, 111, 49], 3⟩ ∧
    k2.getFile fd2 = some ⟨[], 0, [102, 111, 111, 50], 3⟩ ∧
    k2.getFile fd1 = k1.getFile fd1 :=
  ⟨by decide, by decide, builder_create_reusable ⟨3⟩ Kernel.empty
    [102, 111, 111, 49] [102, 111, 111, 50] (by decide) (by decide)⟩

/-- C1 counterexample: for the name "h\x00i" (an embedded null byte) the
builder's create panics on the unwrap; it does not surface an OS-error-style
result to the caller. -/
theorem create_nul_name_panics_not_oserror :
    OpenOptions.new.create Kernel.empty [104, 0, 105] =
      CreateResult.panicked ∧
    (OpenOptions.new.create Kernel.empty [104, 0, 105]).isOsError = false := by
  constructor <;> rfl

/-- C1 (amended): for every name containing an embedded null byte, create
rejects the name before any creation syscall is attempted, but by panicking
on the unwrap (an unrecoverable contract violation), not by returning an
OS-error-style result. -/
theorem create_nul_name_panics (o : OpenOptions) (k : Kernel)
    (name : List Nat) (h : name.contains 0 = true) :
    o.create k name = CreateResult.panicked := by
  have h2 : 0 ∈ name := by simpa using h
  simp [OpenOptions.create, h2]

/-- Witness for C1 (amended) at the concrete name "h\x00i". -/
theorem create_nul_name_panics_witness :
    ([104, 0, 105] : List Nat).contains 0 = true ∧
    OpenOptions.new.create Kernel.empty [104, 0, 105] =
      CreateResult.panicked :=
  ⟨by decide, create_nul_name_panics OpenOptions.new Kernel.empty
    [104, 0, 105] (by decide)⟩

/-- Each toggle keeps the flag bitmask below 4, i.e. within the two known
bits. -/
theorem applyOp_flags_lt (o : OpenOptions) (op : BuilderOp)
    (h : o.flags < 4) : (applyOp o op).flags < 4 := by
  rcases op with b | b <;> rcases b <;>
    simp only [applyOp, OpenOptions.allow_sealing, OpenOptions.close_on_exec,
      if_true, if_false, Bool.false_eq_true, ite_false, ite_true]
  · exact Nat.lt_of_le_of_lt (Nat.sub_le _ _) h
  · have h2 : MFD_ALLOW_SEALING < 4 := by decide
    have := Nat.or_lt_two_pow (n := 2) h h2
    simpa using this
  · exact Nat.lt_of_le_of_lt (Nat.sub_le _ _) h
  · have h2 : MFD_CLOEXEC < 4 := by decide
    have := Nat.or_lt_two_pow (n := 2) h h2
    simpa using this

/-- Any sequence of toggles keeps the flag bitmask below 4. -/
theorem foldl_applyOp_flags_lt (ops : List BuilderOp) (o : OpenOptions)
    (h : o.flags < 4) : (ops.foldl applyOp o).flags < 4 := by
  induction ops generalizing o with
  | nil => exact h
  | cons op rest ih => exact ih _ (applyOp_flags_lt o op h)

/-- C5: for every sequence of allow_sealing and close_on_exec calls starting
from `OpenOptions::new()`, the flag bitmask only ever contains the sealable
and close-on-exec bits; no unknown bit is ever set. -/
theorem builder_flags_invariant (ops : List BuilderOp) :
    (applyOps ops).flags &&& (MFD_CLOEXEC ||| MFD_ALLOW_SEALING) =
      (applyOps ops).flags := by
  have h : (applyOps ops).flags < 4 :=
    foldl_applyOp_flags_lt ops OpenOptions.new (by decide)
  revert h
  generalize (applyOps ops).flags = x
  intro h
  interval_cases x <;> decide

/-- C4: on every builder state with in-range flags, enabling then disabling
allow_sealing restores the state it would have without allow_sealing ever
enabled (and likewise for close_on_exec), and either toggle leaves the other
flag bit untouched. Chaining is embedded by each toggle returning the
updated builder. -/
theorem builder_toggle_idempotent_independent (o : OpenOptions)
    (h : o.flags < 4) :
    (o.flags &&& MFD_ALLOW_SEALING = 0 →
      (o.allow_sealing true).allow_sealing false = o) ∧
    (∀ b, ((o.allow_sealing b).flags &&& MFD_CLOEXEC) =
      o.flags &&& MFD_CLOEXEC) ∧
    (o.flags &&& MFD_CLOEXEC = 0 →
      (o.close_on_exec true).close_on_exec false = o) ∧
    (∀ b, ((o.close_on_exec b).flags &&& MFD_ALLOW_SEALING) =
      o.flags &&& MFD_ALLOW_SEALING) := by
  obtain ⟨fl⟩ := o
  have h2 : fl < 4 := h
  interval_cases fl <;> exact (by decide)

/-- Witness for C4 at the builder with only close-on-exec set: toggling
allow_sealing on and then off restores exactly that state. -/
theorem builder_toggle_witness :
    (1 : Nat) < 4 ∧
    ((OpenOptions.mk 1).allow_sealing true).allow_sealing false =
      OpenOptions.mk 1 :=
  ⟨by decide,
   (builder_toggle_idempotent_independent ⟨1⟩ (by decide)).1 (by decide)⟩

/-- C6: the package-level shorthand `create` behaves identically to
`OpenOptions::new().create`, and the default builder has all flags
cleared. -/
theorem create_shorthand_default (k : Kernel) (name : List Nat) :
    create k name = OpenOptions.new.create k name ∧
    OpenOptions.new.flags = 0 :=
  ⟨rfl, rfl⟩

end Memfd
